import Mathlib

/-!
Verification of the Firebase-Pipeline repository (ETL + validation).

This file gives a shallow embedding of the parts of the repository that the
checked claims are about:

* `src/etl_export_transform.py` — the checkpoint logic of `main`, the version
  directory manager (`_list_version_dirs`, `get_latest_version_dir`,
  `create_new_version_dir`), the merge engine (`merge_with_existing`), and the
  interaction normalization in `normalize_and_save`.
* `src/validation.py` — the per-entity row rule checks, the clean/quarantine
  partitioning of `validate_recipes`, `validate_users` and `validate_steps`,
  and the fixed input paths read by `main`.

Python/pandas values are modelled by the inductive type `Value`; a pandas row
(as produced by `DataFrame.iterrows` or a dict) is an association list from
column name to `Value`; a DataFrame is a `Frame` (column list plus rows).
The embedding assumes the snapshot schema: numeric columns hold numeric or
null values (a Python `TypeError` from comparing a string with a number, or
`float()` applied to a non-decimal string, is modelled by the comparison
returning false resp. the conversion returning `none`).
-/

deriving instance DecidableEq for Except

namespace Pipeline

/-- Python `str.strip()`: remove whitespace from both ends (computable by
structural recursion, unlike `String.trim`). -/
def pyStrip (s : String) : String :=
  ⟨((s.data.dropWhile Char.isWhitespace).reverse.dropWhile Char.isWhitespace).reverse⟩

/-- A Python / pandas scalar value.  `vnull` stands for both Python `None`
and pandas `NaN` (both satisfy `pd.isna`, and pandas hash-based operations
such as `isin` and `drop_duplicates` treat `NaN` as equal to `NaN`). -/
inductive Value where
  | vnull : Value
  | vint (n : ℤ) : Value
  | vfloat (q : ℚ) : Value
  | vstr (s : String) : Value
  | vbool (b : Bool) : Value
deriving DecidableEq, Repr

namespace Value

/-- `pd.isna(v)`. -/
def isna : Value → Bool
  | vnull => true
  | _ => false

/-- Python truthiness `bool(v)`: `None`, `0`, `0.0`, `""` and `False` are falsy. -/
def truthy : Value → Bool
  | vnull => false
  | vint n => n ≠ 0
  | vfloat q => q ≠ 0
  | vstr s => s ≠ ""
  | vbool b => b

/-- Python `str(v)` (numeric formatting is approximated; it is never
compared against a specific numeric rendering in the claims). -/
def pyStr : Value → String
  | vnull => "None"
  | vint n => toString n
  | vfloat q => toString q
  | vstr s => s
  | vbool b => if b then "True" else "False"

/-- The numeric content of a value, when Python would compare it as a number
(`bool` counts as 0/1).  Strings and null have none: a numeric comparison on
them is modelled as false (see the header note). -/
def toNum? : Value → Option ℚ
  | vint n => some (n : ℚ)
  | vfloat q => some q
  | vbool b => some (if b then 1 else 0)
  | _ => none

/-- `v < c` for a numeric constant `c`. -/
def ltNum (v : Value) (c : ℚ) : Bool :=
  match v.toNum? with
  | some q => decide (q < c)
  | none => false

/-- `v <= c` for a numeric constant `c`. -/
def leNum (v : Value) (c : ℚ) : Bool :=
  match v.toNum? with
  | some q => decide (q ≤ c)
  | none => false

/-- `v > c` for a numeric constant `c`. -/
def gtNum (v : Value) (c : ℚ) : Bool :=
  match v.toNum? with
  | some q => decide (q > c)
  | none => false

end Value

/-- A row: an association list from column name to value (first binding wins,
matching a dict / a rectangular pandas row). -/
abbrev Row := List (String × Value)

namespace Row

/-- The value bound to column `c`, if the row has that column. -/
def find? (r : Row) (c : String) : Option Value :=
  List.lookup c r

/-- Python `row.get(c)`: `None` when the column is absent. -/
def getD (r : Row) (c : String) : Value :=
  (r.find? c).getD .vnull

/-- Python `row.get(c, dflt)`. -/
def getDef (r : Row) (c : String) (dflt : Value) : Value :=
  (r.find? c).getD dflt

/-- Python `row[c]`: raises `KeyError` when the column is absent. -/
def getE (r : Row) (c : String) : Except String Value :=
  match r.find? c with
  | some v => .ok v
  | none => .error ("KeyError: " ++ c)

/-- Rebind column `c` to `v` (used only to state independence theorems). -/
def setCol (r : Row) (c : String) (v : Value) : Row :=
  (c, v) :: r.filter (fun p => p.1 ≠ c)

/-- Remove column `c` (used only to state independence theorems). -/
def delCol (r : Row) (c : String) : Row :=
  r.filter (fun p => p.1 ≠ c)

end Row

/-- A DataFrame: its column names and its rows. -/
structure Frame where
  cols : List String
  rows : List Row
deriving DecidableEq, Repr

/-- `df.columns = df.columns.str.strip()` — performed at the top of every
validator in `src/validation.py`; renaming the columns also renames the keys
seen by `iterrows`. -/
def Frame.stripCols (df : Frame) : Frame :=
  ⟨df.cols.map pyStrip, df.rows.map (List.map (fun p => (pyStrip p.1, p.2)))⟩

/-- `df[c]` — the column's values; `KeyError` when the column is absent. -/
def Frame.colE (df : Frame) (c : String) : Except String (List Value) :=
  if c ∈ df.cols then .ok (df.rows.map (fun r => r.getD c)) else .error ("KeyError: " ++ c)

/-! ## Per-row validation rules (`src/validation.py`)

Each `...RowCheck` is a direct translation of the body of the corresponding
`for idx, row in df.iterrows()` loop: an `errors` list and an `is_valid` flag
threaded through the sequence of `if` statements, each failing rule appending
its message and clearing the flag. -/

def VALID_DIFFICULTIES : List String := ["Easy", "Medium", "Hard"]

def VALID_TYPES : List String := ["view", "like", "cook_attempt", "rating"]

/-- `pd.isna(row.get("name")) or str(row.get("name", "")).strip() == ""`. -/
def nameMissing (row : Row) (c : String) : Bool :=
  (row.getD c).isna || (pyStrip (row.getDef c (.vstr "")).pyStr == "")

/-- recipe rule: missing or empty `name`. -/
def recipeNameBad (row : Row) : Bool := nameMissing row "name"

/-- recipe rule: `pd.isna(row.get("description"))`. -/
def recipeDescBad (row : Row) : Bool := (row.getD "description").isna

/-- recipe rule: `pd.isna(row.get("prep_time_minutes")) or row.get("prep_time_minutes", -1) < 0`. -/
def recipePrepBad (row : Row) : Bool :=
  (row.getD "prep_time_minutes").isna || (row.getDef "prep_time_minutes" (.vint (-1))).ltNum 0

/-- recipe rule: `pd.isna(row.get("cook_time_minutes")) or row.get("cook_time_minutes", -1) < 0`. -/
def recipeCookBad (row : Row) : Bool :=
  (row.getD "cook_time_minutes").isna || (row.getDef "cook_time_minutes" (.vint (-1))).ltNum 0

/-- recipe rule: `pd.isna(row.get("servings")) or row.get("servings", 0) <= 0`. -/
def recipeServingsBad (row : Row) : Bool :=
  (row.getD "servings").isna || (row.getDef "servings" (.vint 0)).leNum 0

/-- recipe rule: `str(row.get("difficulty")) not in VALID_DIFFICULTIES`. -/
def recipeDifficultyBad (row : Row) : Bool :=
  !(decide ((row.getD "difficulty").pyStr ∈ VALID_DIFFICULTIES))

/-- The loop body of `validate_recipes` for one row: `(errors, is_valid)`. -/
def recipeRowCheck (row : Row) : List String × Bool :=
  let a0 : List String × Bool := ([], true)
  let a1 := if recipeNameBad row then (a0.1 ++ ["Missing or empty recipe name"], false) else a0
  let a2 := if recipeDescBad row then (a1.1 ++ ["Missing recipe description"], false) else a1
  let a3 := if recipePrepBad row then (a2.1 ++ ["prep_time_minutes must be non-negative"], false) else a2
  let a4 := if recipeCookBad row then (a3.1 ++ ["cook_time_minutes must be non-negative"], false) else a3
  let a5 := if recipeServingsBad row then (a4.1 ++ ["servings must be positive"], false) else a4
  let a6 := if recipeDifficultyBad row then
    (a5.1 ++ ["Invalid difficulty value: " ++ (row.getD "difficulty").pyStr], false) else a5
  a6

/-- The recipe rules as independent (rule → optional error) functions.
Used to state that errors accumulate one entry per failed rule. -/
def recipeRules : List (Row → Option String) :=
  [ fun row => if recipeNameBad row then some "Missing or empty recipe name" else none,
    fun row => if recipeDescBad row then some "Missing recipe description" else none,
    fun row => if recipePrepBad row then some "prep_time_minutes must be non-negative" else none,
    fun row => if recipeCookBad row then some "cook_time_minutes must be non-negative" else none,
    fun row => if recipeServingsBad row then some "servings must be positive" else none,
    fun row => if recipeDifficultyBad row then
      some ("Invalid difficulty value: " ++ (row.getD "difficulty").pyStr) else none ]

/-- user rule: `pd.isna(row["user_id"]) or str(row["user_id"]).strip() == ""`
(the loop runs only when the `user_id` column is present, so `row[c]`
never raises there and is modelled by `getD`). -/
def userIdBad (row : Row) : Bool :=
  (row.getD "user_id").isna || (pyStrip (row.getD "user_id").pyStr == "")

/-- user rule: `pd.isna(row["name"]) or str(row["name"]).strip() == ""`. -/
def userNameBad (row : Row) : Bool :=
  (row.getD "name").isna || (pyStrip (row.getD "name").pyStr == "")

/-- The loop body of `validate_users` for one row. -/
def userRowCheck (row : Row) : List String × Bool :=
  let a0 : List String × Bool := ([], true)
  let a1 := if userIdBad row then (a0.1 ++ ["Missing user_id"], false) else a0
  let a2 := if userNameBad row then (a1.1 ++ ["Missing user name"], false) else a1
  a2

def userRules : List (Row → Option String) :=
  [ fun row => if userIdBad row then some "Missing user_id" else none,
    fun row => if userNameBad row then some "Missing user name" else none ]

/-- ingredient rule: `pd.isna(row.get("recipe_id"))`. -/
def ingredientRecipeIdBad (row : Row) : Bool := (row.getD "recipe_id").isna

/-- ingredient rule: missing or empty `name`. -/
def ingredientNameBad (row : Row) : Bool := nameMissing row "name"

/-- ingredient rule: `pd.isna(row.get("quantity")) or row.get("quantity", 0) <= 0`. -/
def ingredientQuantityBad (row : Row) : Bool :=
  (row.getD "quantity").isna || (row.getDef "quantity" (.vint 0)).leNum 0

/-- The loop body of `validate_ingredients` for one row. -/
def ingredientRowCheck (row : Row) : List String × Bool :=
  let a0 : List String × Bool := ([], true)
  let a1 := if ingredientRecipeIdBad row then (a0.1 ++ ["Missing recipe_id link"], false) else a0
  let a2 := if ingredientNameBad row then (a1.1 ++ ["Missing ingredient name"], false) else a1
  let a3 := if ingredientQuantityBad row then (a2.1 ++ ["Quantity must be positive"], false) else a2
  a3

def ingredientRules : List (Row → Option String) :=
  [ fun row => if ingredientRecipeIdBad row then some "Missing recipe_id link" else none,
    fun row => if ingredientNameBad row then some "Missing ingredient name" else none,
    fun row => if ingredientQuantityBad row then some "Quantity must be positive" else none ]

/-- step rule: `pd.isna(row.get("recipe_id"))`. -/
def stepRecipeIdBad (row : Row) : Bool := (row.getD "recipe_id").isna

/-- step rule: missing or empty `instruction`. -/
def stepInstructionBad (row : Row) : Bool := nameMissing row "instruction"

/-- step rule: `pd.isna(row.get("step_no")) or row.get("step_no", 0) <= 0`. -/
def stepNoBad (row : Row) : Bool :=
  (row.getD "step_no").isna || (row.getDef "step_no" (.vint 0)).leNum 0

/-- step rule: `pd.isna(row.get("duration_minutes")) or row.get("duration_minutes", -1) < 0`. -/
def stepDurationBad (row : Row) : Bool :=
  (row.getD "duration_minutes").isna || (row.getDef "duration_minutes" (.vint (-1))).ltNum 0

/-- The loop body of `validate_steps` for one row. -/
def stepRowCheck (row : Row) : List String × Bool :=
  let a0 : List String × Bool := ([], true)
  let a1 := if stepRecipeIdBad row then (a0.1 ++ ["Missing recipe_id link"], false) else a0
  let a2 := if stepInstructionBad row then (a1.1 ++ ["Missing step instruction"], false) else a1
  let a3 := if stepNoBad row then (a2.1 ++ ["step_no must be positive"], false) else a2
  let a4 := if stepDurationBad row then (a3.1 ++ ["duration_minutes must be non-negative"], false) else a3
  a4

def stepRules : List (Row → Option String) :=
  [ fun row => if stepRecipeIdBad row then some "Missing recipe_id link" else none,
    fun row => if stepInstructionBad row then some "Missing step instruction" else none,
    fun row => if stepNoBad row then some "step_no must be positive" else none,
    fun row => if stepDurationBad row then some "duration_minutes must be non-negative" else none ]

/-- interaction rule: `pd.isna(row.get("user_id"))`. -/
def interactionUserIdBad (row : Row) : Bool := (row.getD "user_id").isna

/-- interaction rule: `pd.isna(row.get("recipe_id"))`. -/
def interactionRecipeIdBad (row : Row) : Bool := (row.getD "recipe_id").isna

/-- interaction rule: `str(row.get("type")) not in VALID_TYPES`. -/
def interactionTypeBad (row : Row) : Bool :=
  !(decide ((row.getD "type").pyStr ∈ VALID_TYPES))

/-- The guard `row.get("type") == "rating"` (Python equality of the raw value
with the string: false for any non-string value, no exception). -/
def interactionIsRatingType (row : Row) : Bool :=
  decide (row.getD "type" = .vstr "rating")

/-- interaction rule, applicable only under the guard:
`pd.isna(row.get("rating")) or row.get("rating", 0) < 1 or row.get("rating", 6) > 5`. -/
def interactionRatingBad (row : Row) : Bool :=
  (row.getD "rating").isna || (row.getDef "rating" (.vint 0)).ltNum 1
    || (row.getDef "rating" (.vint 6)).gtNum 5

/-- interaction rule: `pd.isna(row.get("timestamp"))`. -/
def interactionTimestampBad (row : Row) : Bool := (row.getD "timestamp").isna

/-- The loop body of `validate_interactions` for one row. -/
def interactionRowCheck (row : Row) : List String × Bool :=
  let a0 : List String × Bool := ([], true)
  let a1 := if interactionUserIdBad row then (a0.1 ++ ["Missing user_id link"], false) else a0
  let a2 := if interactionRecipeIdBad row then (a1.1 ++ ["Missing recipe_id link"], false) else a1
  let a3 := if interactionTypeBad row then
    (a2.1 ++ ["Invalid interaction type: " ++ (row.getD "type").pyStr], false) else a2
  let a4 := if interactionIsRatingType row && interactionRatingBad row then
    (a3.1 ++ ["Rating out of bounds or missing for rating type: " ++ (row.getD "rating").pyStr],
      false) else a3
  let a5 := if interactionTimestampBad row then (a4.1 ++ ["Missing timestamp"], false) else a4
  a5

def interactionRules : List (Row → Option String) :=
  [ fun row => if interactionUserIdBad row then some "Missing user_id link" else none,
    fun row => if interactionRecipeIdBad row then some "Missing recipe_id link" else none,
    fun row => if interactionTypeBad row then
      some ("Invalid interaction type: " ++ (row.getD "type").pyStr) else none,
    fun row => if interactionIsRatingType row && interactionRatingBad row then
      some ("Rating out of bounds or missing for rating type: " ++ (row.getD "rating").pyStr)
      else none,
    fun row => if interactionTimestampBad row then some "Missing timestamp" else none ]

/-! ## Frame-level validators (`src/validation.py`)

Each validator strips the column names, runs its per-row loop (accumulating
the report and the quarantined rows, and raising `KeyError` where the code
indexes `row[...]` directly), and then builds the clean partition. -/

/-- One entry of the per-entity validation report. -/
structure VRecord where
  key : List (String × Value)
  is_valid : Bool
  errors : List String
deriving DecidableEq, Repr

/-- The outcome of one validator: the report and the two written partitions
(the function in the source returns `(report, len(clean), len(quarantine))`
after writing the partitions to CSV). -/
structure VOut where
  report : List VRecord
  clean : List Row
  quarantine : List Row
deriving DecidableEq, Repr

/-- The `for idx, row in df.iterrows()` loop of `validate_recipes`:
builds the report and the `quarantine_rows` list in row order; the record
construction `row["recipe_id"]` raises `KeyError` when the column is
absent. -/
def recipesLoop : List Row → Except String (List VRecord × List Row)
  | [] => .ok ([], [])
  | row :: rest =>
      match row.getE "recipe_id" with
      | .error e => .error e
      | .ok rid =>
          match recipesLoop rest with
          | .error e => .error e
          | .ok (rep, quar) =>
              .ok (⟨[("recipe_id", rid)], (recipeRowCheck row).2, (recipeRowCheck row).1⟩ :: rep,
                   (if (recipeRowCheck row).2 then [] else [row]) ++ quar)

/-- `validate_recipes(df)`:
`clean_df = df[~df["recipe_id"].isin(quarantine_df.get("recipe_id", []))]`. -/
def validate_recipes (df0 : Frame) : Except String VOut :=
  let df := df0.stripCols
  match recipesLoop df.rows with
  | .error e => .error e
  | .ok (report, quarRows) =>
      match df.colE "recipe_id" with
      | .error e => .error e
      | .ok _ =>
          let quarKeys := quarRows.map (fun r => r.getD "recipe_id")
          .ok ⟨report,
               df.rows.filter
                 (fun r => !(quarKeys.any (fun k => decide (k = r.getD "recipe_id")))),
               quarRows⟩

/-- The loop of `validate_users` (runs only when `user_id` is a column;
`row["user_id"]` / `row["name"]` raise `KeyError` if a row lacks the key). -/
def usersLoop : List Row → Except String (List VRecord × List Row)
  | [] => .ok ([], [])
  | row :: rest =>
      match row.getE "user_id", row.getE "name" with
      | .error e, _ => .error e
      | .ok _, .error e => .error e
      | .ok uid, .ok _ =>
          match usersLoop rest with
          | .error e => .error e
          | .ok (rep, quar) =>
              .ok (⟨[("user_id", uid)], (userRowCheck row).2, (userRowCheck row).1⟩ :: rep,
                   (if (userRowCheck row).2 then [] else [row]) ++ quar)

/-- `validate_users(df)`: if the `user_id` column is missing entirely, every
row is quarantined, an empty clean frame is written, and `([], 0, len(df))`
is returned — no exception escapes.  Otherwise partition as for recipes. -/
def validate_users (df0 : Frame) : Except String VOut :=
  let df := df0.stripCols
  if "user_id" ∉ df.cols then
    .ok ⟨[], [], df.rows⟩
  else
    match usersLoop df.rows with
    | .error e => .error e
    | .ok (report, quarRows) =>
        match df.colE "user_id" with
        | .error e => .error e
        | .ok _ =>
            let quarKeys := quarRows.map (fun r => r.getD "user_id")
            .ok ⟨report,
                 df.rows.filter
                   (fun r => !(quarKeys.any (fun k => decide (k = r.getD "user_id")))),
                 quarRows⟩

/-- The loop of `validate_steps`, tracking the DataFrame index `i` of each
row: `quarantine_df.index` is the list of original indices of the
quarantined rows. -/
def stepsLoop : Nat → List Row → Except String (List VRecord × List Nat × List Row)
  | _, [] => .ok ([], [], [])
  | i, row :: rest =>
      match row.getE "recipe_id", row.getE "step_no" with
      | .error e, _ => .error e
      | .ok _, .error e => .error e
      | .ok rid, .ok sno =>
          match stepsLoop (i + 1) rest with
          | .error e => .error e
          | .ok (rep, qIdx, qRows) =>
              .ok (⟨[("recipe_id", rid), ("step_no", sno)],
                     (stepRowCheck row).2, (stepRowCheck row).1⟩ :: rep,
                   (if (stepRowCheck row).2 then [] else [i]) ++ qIdx,
                   (if (stepRowCheck row).2 then [] else [row]) ++ qRows)

/-- `validate_steps(df)`: index-based exclusion,
`clean_df = df[~df.index.isin(quarantine_indices)]`. -/
def validate_steps (df0 : Frame) : Except String VOut :=
  let df := df0.stripCols
  match stepsLoop 0 df.rows with
  | .error e => .error e
  | .ok (report, quarIdx, quarRows) =>
      .ok ⟨report,
           (df.rows.enum.filter
             (fun p => !(quarIdx.any (fun j => decide (j = p.1))))).map Prod.snd,
           quarRows⟩

/-! ## Merge engine (`merge_with_existing`, `src/etl_export_transform.py`) -/

/-- The key of a row under `key_columns` (pandas `drop_duplicates(subset=...)`
compares the tuple of key-column values, with `NaN` equal to `NaN`).  The
columns are assumed present in the rows (as the frames produced by
`normalize_and_save` and read back from a snapshot always are); the pandas
`KeyError` for a subset column missing from the whole frame is outside this
row-level model. -/
def keyOf (kc : List String) (r : Row) : List Value :=
  kc.map (fun c => r.getD c)

/-- `DataFrame.drop_duplicates(subset=kc, keep="last")`: keep a row iff no
later row has the same key; kept rows stay in order. -/
def dedupLast (kc : List String) : List Row → List Row
  | [] => []
  | r :: rs =>
      if rs.any (fun q => decide (keyOf kc q = keyOf kc r)) then dedupLast kc rs
      else r :: dedupLast kc rs

/-- The state of the prior version's file for one entity. -/
inductive FileContent where
  | unreadable : FileContent
  | csv (rows : List Row) : FileContent
deriving DecidableEq, Repr

/-- A directory: file name ↦ content (a missing name models
`os.path.exists(...) == False`). -/
abbrev Dir := List (String × FileContent)

/-- `merge_with_existing(df_new, prev_dir, filename, key_columns, incremental)`:

* not incremental, no previous dir, or no prior file → `df_new` unchanged;
* prior file unreadable (`pd.read_csv` raises) → `df_new`, with a warning;
* otherwise `concat([df_existing, df_new])`, then, if `key_columns` is
  non-empty (truthy), `drop_duplicates(subset=key_columns, keep="last")`. -/
def merge_with_existing (df_new : List Row) (prev_dir : Option Dir) (filename : String)
    (key_columns : List String) (incremental : Bool) : List Row :=
  match incremental, prev_dir with
  | true, some d =>
      match List.lookup filename d with
      | some (.csv df_existing) =>
          let combined := df_existing ++ df_new
          if key_columns.isEmpty then combined else dedupLast key_columns combined
      | some .unreadable => df_new
      | none => df_new
  | _, _ => df_new

/-! ## Version directory manager (`src/etl_export_transform.py`) -/

/-- A listing of `OUTPUT_DIR`: entry name and whether it is a directory. -/
abbrev Listing := List (String × Bool)

/-- `int(s)` on a prefix-free string: optional sign, then decimal digits
(Python also strips whitespace first). Returns `none` where Python raises
`ValueError`. -/
def pyInt? (s : String) : Option ℤ :=
  let digitsVal : List Char → Option ℤ := fun cs =>
    if cs ≠ [] && cs.all Char.isDigit then
      some (cs.foldl (fun a c => a * 10 + ((c.toNat : ℤ) - 48)) 0)
    else none
  match (pyStrip s).data with
  | '+' :: cs => digitsVal cs
  | '-' :: cs => (digitsVal cs).map Neg.neg
  | cs => digitsVal cs

/-- `name.split("_", 1)[0]`: the part before the first underscore. -/
def beforeUnderscore (s : String) : String :=
  ⟨s.data.takeWhile (fun c => c ≠ '_')⟩

/-- `name[1:]`: drop the first character. -/
def dropFirstChar (s : String) : String :=
  ⟨s.data.drop 1⟩

/-- `name.startswith("v")`. -/
def startsWithV (s : String) : Bool :=
  match s.data with
  | 'v' :: _ => true
  | _ => false

/-- `"_" in name`. -/
def hasUnderscore (s : String) : Bool :=
  s.data.any (fun c => c = '_')

/-- `_list_version_dirs()`: `(version_number, name)` for every directory
entry named `v<int>_<anything>`; unparsable entries are skipped. -/
def listVersionDirs (entries : Listing) : List (ℤ × String) :=
  entries.filterMap (fun e =>
    if e.2 && startsWithV e.1 && hasUnderscore e.1 then
      match pyInt? (dropFirstChar (beforeUnderscore e.1)) with
      | some n => some (n, e.1)
      | none => none
    else none)

/-- `get_latest_version_dir()`: sort by version number (Python's stable
sort) and take the last entry — i.e. the last-listed entry with the maximal
number. -/
def get_latest_version_dir (entries : Listing) : Option String :=
  ((listVersionDirs entries).foldl
    (fun acc x => match acc with
      | none => some x
      | some m => if m.1 ≤ x.1 then some x else some m)
    none).map Prod.snd

/-- `max(v[0] for v in versions)` with default 0 for an empty listing. -/
def maxVersionNum (entries : Listing) : ℤ :=
  match (listVersionDirs entries).map Prod.fst with
  | [] => 0
  | n :: ns => ns.foldl max n

/-- `create_new_version_dir()` given the current listing and the formatted
UTC timestamp: computes `new_num = max + 1` and the folder name
`v{new_num}_{ts}`; `os.makedirs(full_path, exist_ok=False)` raises
`FileExistsError` when an entry with that exact name already exists.
Returns the new listing together with `(folder_name, new_num)`. -/
def create_new_version_dir (entries : Listing) (ts_str : String) :
    Except String (Listing × String × ℤ) :=
  let new_num := maxVersionNum entries + 1
  let folder_name := "v" ++ toString new_num ++ "_" ++ ts_str
  if entries.any (fun e => decide (e.1 = folder_name)) then
    .error "FileExistsError"
  else
    .ok (entries ++ [(folder_name, true)], folder_name, new_num)

/-! ## Checkpoint flow of `main` (`src/etl_export_transform.py`)

`main` runs inside one `try` block:
`get_last_run_timestamp` → `get_latest_version_dir` → `backup_previous_version`
→ `create_new_version_dir` (first `utcnow()` sample, before any extraction)
→ `fetch_firestore_data` → `normalize_and_save` →
`save_last_run_timestamp(datetime.datetime.utcnow())` (second `utcnow()`
sample).  Any exception from a stage propagates and skips the checkpoint
write.  The stages' bodies are abstracted to their success/failure, which is
all the checkpoint logic observes. -/

structure RunEnv where
  /-- successive values returned by `datetime.datetime.utcnow()`:
  sample 0 is taken in `create_new_version_dir` (before extraction),
  sample 1 at the checkpoint write after a successful run. -/
  clock : ℕ → ℕ
  /-- result of `get_last_run_timestamp()` (parsed checkpoint, if any). -/
  checkpoint0 : Option ℕ
  /-- result of `get_latest_version_dir()`. -/
  prevDir : Option String
  /-- `create_new_version_dir` succeeds (no `FileExistsError`). -/
  createOk : Bool
  /-- `fetch_firestore_data` succeeds. -/
  fetchOk : Bool
  /-- `normalize_and_save` succeeds. -/
  normalizeOk : Bool

/-- The first `utcnow()` sample of a run — the only timestamp taken before
extraction begins. -/
def runStartTime (env : RunEnv) : ℕ := env.clock 0

structure RunResult where
  success : Bool
  /-- `incremental = last_ts is not None and prev_version_dir is not None`. -/
  incremental : Bool
  /-- the checkpoint value written by `save_last_run_timestamp`, if reached. -/
  checkpointWritten : Option ℕ
deriving DecidableEq, Repr

/-- The checkpoint-relevant control flow of `main`. -/
def etlMain (env : RunEnv) : RunResult :=
  let incr := env.checkpoint0.isSome && env.prevDir.isSome
  if !env.createOk then ⟨false, incr, none⟩
  else if !env.fetchOk then ⟨false, incr, none⟩
  else if !env.normalizeOk then ⟨false, incr, none⟩
  else ⟨true, incr, some (env.clock 1)⟩

/-! ## Interaction normalization (`normalize_and_save`) -/

/-- `float(v)` where Python would succeed: numbers and booleans convert
directly; strings convert when they are plain (optionally signed) decimals
(exotic accepted syntaxes such as exponents are not modelled, and are not
exercised by any claim); `none` models a raised conversion error. -/
def pyFloat? : Value → Option ℚ
  | .vint n => some (n : ℚ)
  | .vfloat q => some q
  | .vbool b => some (if b then 1 else 0)
  | .vnull => none
  | .vstr s =>
      let natOfDigits : List Char → ℚ := fun cs =>
        ((cs.foldl (fun a c => a * 10 + (c.toNat - 48)) 0 : ℕ) : ℚ)
      let (sign, body) : ℚ × List Char :=
        match (pyStrip s).data with
        | '-' :: cs => (-1, cs)
        | '+' :: cs => (1, cs)
        | cs => (1, cs)
      match body.splitOn '.' with
      | [ip] => if ip ≠ [] && ip.all Char.isDigit then some (sign * natOfDigits ip) else none
      | [ip, fp] =>
          if (ip ≠ [] || fp ≠ []) && ip.all Char.isDigit && fp.all Char.isDigit then
            some (sign * (natOfDigits ip + natOfDigits fp / ((10 : ℚ) ^ fp.length)))
          else none
      | _ => none

/-- One interactions row built by `normalize_and_save`:

```
"rating": float(it.get("rating")) if it.get("rating") else None,
"like":   bool(it.get("like")) if it.get("like") is not None else False,
```
A falsy rating (absent, `None`, `0`, `0.0`, `""`, `False`) becomes `None`;
a truthy one goes through `float(...)`, whose failure raises out of
`normalize_and_save`. -/
def normalizeInteraction (it : Row) : Except String Row := do
  let ratingVal := it.getD "rating"
  let rating ← if ratingVal.truthy then
      match pyFloat? ratingVal with
      | some q => Except.ok (Value.vfloat q)
      | none => Except.error "float() conversion failed"
    else Except.ok Value.vnull
  let likeVal := it.getD "like"
  let like := if likeVal = Value.vnull then Value.vbool false else Value.vbool likeVal.truthy
  .ok [("interaction_id", .vstr (it.getD "interaction_id").pyStr),
       ("user_id", .vstr (it.getD "user_id").pyStr),
       ("recipe_id", .vstr (it.getD "recipe_id").pyStr),
       ("type", .vstr (it.getD "type").pyStr),
       ("rating", rating),
       ("like", like),
       ("timestamp", .vstr (it.getD "timestamp").pyStr)]

/-! ## Input paths of the Validation Engine (`src/validation.py`, `main`) -/

/-- `INPUT_DIR = "ETL_Output"` — a fixed, non-versioned location. -/
def INPUT_DIR : String := "ETL_Output"

/-- A file system as full path ↦ content. -/
abbrev FS := List (String × FileContent)

/-- `pd.read_csv(path)`: `FileNotFoundError` when the path is absent. -/
def readCsvE (fs : FS) (path : String) : Except String (List Row) :=
  match List.lookup path fs with
  | some (.csv rows) => .ok rows
  | some .unreadable => .error ("ParserError: " ++ path)
  | none => .error ("FileNotFoundError: " ++ path)

/-- The five reads at the top of `validation.main`. -/
def validationLoadInputs (fs : FS) :
    Except String (List Row × List Row × List Row × List Row × List Row) := do
  let recipe ← readCsvE fs (INPUT_DIR ++ "/recipe.csv")
  let ingredients ← readCsvE fs (INPUT_DIR ++ "/ingredients.csv")
  let steps ← readCsvE fs (INPUT_DIR ++ "/steps.csv")
  let interactions ← readCsvE fs (INPUT_DIR ++ "/interactions.csv")
  let users ← readCsvE fs (INPUT_DIR ++ "/users.csv")
  .ok (recipe, ingredients, steps, interactions, users)

/-! ## Concrete inputs used by witnesses and counterexamples -/

def exC1New : Row := [("recipe_id", .vstr "r1"), ("difficulty", .vstr "Hard")]
def exC1PriorA : Row := [("recipe_id", .vstr "r1"), ("difficulty", .vstr "Easy")]
def exC1PriorB : Row := [("recipe_id", .vstr "r2"), ("difficulty", .vstr "Medium")]
def exC1Dir : Dir := [("recipe.csv", .csv [exC1PriorA, exC1PriorB])]

def exC2RowA : Row := [("recipe_id", .vstr "r1"), ("name", .vstr "Soup")]
def exC2RowB : Row := [("recipe_id", .vstr "r2"), ("name", .vstr "Stew")]
def exC2Dir : Dir := [("recipe.csv", .csv [exC2RowA, exC2RowB])]

/-- A successful run whose `utcnow()` samples are 0 (in
`create_new_version_dir`, before extraction) and 1 (at the checkpoint
write): a strictly advancing clock. -/
def exC3Env : RunEnv := ⟨id, some 0, some "v1_a", true, true, true⟩

def exC4V1 : String := "v1_2024-01-01_00-00-00"
def exC4Listing : Listing := [(exC4V1, true), ("Backup", true), ("etl_checkpoint.txt", false)]
def exC4SnapshotRows : List Row := [[("recipe_id", .vstr "r1"), ("name", .vstr "Soup")]]
/-- The output tree right after an ETL run: all five entity files live in the
version directory; nothing lies at the `ETL_Output` root itself. -/
def exC4FS : FS :=
  [("ETL_Output/" ++ exC4V1 ++ "/recipe.csv", .csv exC4SnapshotRows),
   ("ETL_Output/" ++ exC4V1 ++ "/ingredients.csv", .csv []),
   ("ETL_Output/" ++ exC4V1 ++ "/steps.csv", .csv []),
   ("ETL_Output/" ++ exC4V1 ++ "/interactions.csv", .csv []),
   ("ETL_Output/" ++ exC4V1 ++ "/users.csv", .csv [])]

/-- Invalid recipe row (empty name) with key `r1`. -/
def exC5Bad : Row :=
  [("recipe_id", .vstr "r1"), ("name", .vstr ""), ("description", .vstr "d"),
   ("prep_time_minutes", .vint 1), ("cook_time_minutes", .vint 1),
   ("servings", .vint 1), ("difficulty", .vstr "Easy")]
/-- Valid recipe row sharing the key `r1`. -/
def exC5Good : Row :=
  [("recipe_id", .vstr "r1"), ("name", .vstr "Good"), ("description", .vstr "d"),
   ("prep_time_minutes", .vint 1), ("cook_time_minutes", .vint 1),
   ("servings", .vint 1), ("difficulty", .vstr "Easy")]
def exC5Cols : List String :=
  ["recipe_id", "name", "description", "prep_time_minutes", "cook_time_minutes",
   "servings", "difficulty"]
/-- Two distinct input rows sharing the natural key `r1`, one invalid. -/
def exC5DupFrame : Frame := ⟨exC5Cols, [exC5Bad, exC5Good]⟩

def exC5WGood : Row :=
  [("recipe_id", .vstr "r1"), ("name", .vstr "Soup"), ("description", .vstr "d"),
   ("prep_time_minutes", .vint 1), ("cook_time_minutes", .vint 1),
   ("servings", .vint 1), ("difficulty", .vstr "Easy")]
def exC5WBad : Row :=
  [("recipe_id", .vstr "r2"), ("name", .vstr ""), ("description", .vstr "d"),
   ("prep_time_minutes", .vint 1), ("cook_time_minutes", .vint 1),
   ("servings", .vint 1), ("difficulty", .vstr "Easy")]
/-- A recipe frame with pairwise-distinct keys. -/
def exC5WFrame : Frame := ⟨exC5Cols, [exC5WGood, exC5WBad]⟩
/-- The outcome of `validate_recipes` on `exC5WFrame`. -/
def exC5WOut : VOut :=
  ⟨[⟨[("recipe_id", .vstr "r1")], true, []⟩,
    ⟨[("recipe_id", .vstr "r2")], false, ["Missing or empty recipe name"]⟩],
   [exC5WGood], [exC5WBad]⟩

def exC7View : Row :=
  [("interaction_id", .vstr "i1"), ("user_id", .vstr "u1"), ("recipe_id", .vstr "r1"),
   ("type", .vstr "view"), ("rating", .vnull), ("timestamp", .vstr "2024-01-01")]
def exC7Rating7 : Row :=
  [("interaction_id", .vstr "i2"), ("user_id", .vstr "u1"), ("recipe_id", .vstr "r1"),
   ("type", .vstr "rating"), ("rating", .vfloat 7), ("timestamp", .vstr "2024-01-01")]
def exC7Rating4 : Row :=
  [("interaction_id", .vstr "i3"), ("user_id", .vstr "u1"), ("recipe_id", .vstr "r1"),
   ("type", .vstr "rating"), ("rating", .vfloat 4), ("timestamp", .vstr "2024-01-01")]

/-- A users frame whose columns do not include `user_id`. -/
def exC9Frame : Frame := ⟨["uid", "name"], [[("uid", .vstr "u1"), ("name", .vstr "Ann")]]⟩

def exC10Doc : Row := [("interaction_id", .vstr "i1"), ("rating", .vint 4)]

/-! ## Lemmas about `dedupLast` -/

theorem dedupLast_sublist (kc : List String) :
    ∀ l : List Row, List.Sublist (dedupLast kc l) l := by
  intro l
  induction l with
  | nil => simp [dedupLast]
  | cons r rs ih =>
      rw [dedupLast]
      split
      · exact ih.cons r
      · exact ih.cons₂ r

theorem mem_of_mem_dedupLast {kc : List String} {l : List Row} {r : Row}
    (h : r ∈ dedupLast kc l) : r ∈ l :=
  (dedupLast_sublist kc l).subset h

theorem nodup_keys_dedupLast (kc : List String) :
    ∀ l : List Row, ((dedupLast kc l).map (keyOf kc)).Nodup := by
  intro l
  induction l with
  | nil => simp [dedupLast]
  | cons r rs ih =>
      rw [dedupLast]
      split
      · exact ih
      · next hany =>
          rw [List.map_cons, List.nodup_cons]
          refine ⟨?_, ih⟩
          intro hmem
          obtain ⟨q, hq, hkey⟩ := List.mem_map.mp hmem
          have hq' : q ∈ rs := mem_of_mem_dedupLast hq
          exact hany (List.any_eq_true.mpr ⟨q, hq', by simp [hkey]⟩)

theorem dedupLast_filter_key (kc : List String) (k : List Value) :
    ∀ l : List Row,
      (dedupLast kc l).filter (fun r => decide (keyOf kc r = k)) =
        ((l.filter (fun r => decide (keyOf kc r = k))).getLast?).toList := by
  intro l
  induction l with
  | nil => simp [dedupLast]
  | cons r rs ih =>
      rw [dedupLast]
      by_cases hany : rs.any (fun q => decide (keyOf kc q = keyOf kc r)) = true
      · rw [if_pos hany, ih, List.filter_cons]
        by_cases hk : keyOf kc r = k
        · obtain ⟨q, hq, hkeyq⟩ := List.any_eq_true.mp hany
          have hqk : keyOf kc q = k := by
            rw [of_decide_eq_true hkeyq, hk]
          have hne : rs.filter (fun r => decide (keyOf kc r = k)) ≠ [] := by
            intro hnil
            exact (List.filter_eq_nil_iff.mp hnil q hq) (by simp [hqk])
          rw [if_pos (by simp [hk])]
          have : (r :: rs.filter (fun r => decide (keyOf kc r = k))) =
              [r] ++ rs.filter (fun r => decide (keyOf kc r = k)) := rfl
          rw [this, List.getLast?_append_of_ne_nil [r] hne]
        · rw [if_neg (by simp [hk])]
      · rw [if_neg hany]
        have hnone : ∀ q ∈ rs, keyOf kc q ≠ keyOf kc r := by
          intro q hq hkey
          exact hany (List.any_eq_true.mpr ⟨q, hq, by simp [hkey]⟩)
        rw [List.filter_cons, List.filter_cons]
        by_cases hk : keyOf kc r = k
        · have hnil : rs.filter (fun r => decide (keyOf kc r = k)) = [] := by
            rw [List.filter_eq_nil_iff]
            intro q hq
            simp only [decide_eq_true_eq]
            intro hqk
            exact hnone q hq (hqk.trans hk.symm)
          rw [if_pos (by simp [hk]), if_pos (by simp [hk]), ih, hnil]
          simp
        · rw [if_neg (by simp [hk]), if_neg (by simp [hk]), ih]

theorem dedupLast_eq_self_of_nodup_keys {kc : List String} :
    ∀ {l : List Row}, (l.map (keyOf kc)).Nodup → dedupLast kc l = l := by
  intro l
  induction l with
  | nil => intro _; rfl
  | cons r rs ih =>
      intro hnd
      rw [List.map_cons, List.nodup_cons] at hnd
      rw [dedupLast, if_neg, ih hnd.2]
      intro hany
      obtain ⟨q, hq, hkeyq⟩ := List.any_eq_true.mp hany
      exact hnd.1 (List.mem_map.mpr ⟨q, hq, of_decide_eq_true hkeyq⟩)

/-! ## C1 and C2: the merge engine -/

/-- C1: with `incremental = true`, a present previous directory, an existing
readable prior file and non-empty `key_columns`, the merge result is
`prior_rows ++ new_rows` deduplicated by the key columns keeping the last
occurrence: no key occurs twice in the output; a key occurring in the new
rows is represented by its (last) new row; a key absent from the new rows is
represented by its (last) prior row. -/
theorem merge_incremental_last_write_wins
    (df_new prior : List Row) (d : Dir) (filename : String) (kc : List String)
    (out : List Row)
    (hfile : List.lookup filename d = some (.csv prior))
    (hkc : kc ≠ [])
    (hout : out = merge_with_existing df_new (some d) filename kc true) :
    out = dedupLast kc (prior ++ df_new) ∧
    ((out.map (keyOf kc)).Nodup) ∧
    (∀ k, (∃ r ∈ df_new, keyOf kc r = k) →
      out.filter (fun r => decide (keyOf kc r = k)) =
        ((df_new.filter (fun r => decide (keyOf kc r = k))).getLast?).toList) ∧
    (∀ k, (∀ r ∈ df_new, keyOf kc r ≠ k) →
      out.filter (fun r => decide (keyOf kc r = k)) =
        ((prior.filter (fun r => decide (keyOf kc r = k))).getLast?).toList) := by
  have hdedup : out = dedupLast kc (prior ++ df_new) := by
    rw [hout]
    simp only [merge_with_existing, hfile]
    rw [if_neg (by simpa [List.isEmpty_iff] using hkc)]
  refine ⟨hdedup, ?_, ?_, ?_⟩
  · rw [hdedup]; exact nodup_keys_dedupLast kc _
  · intro k hk
    obtain ⟨r, hr, hkey⟩ := hk
    rw [hdedup, dedupLast_filter_key, List.filter_append]
    have hne : df_new.filter (fun r => decide (keyOf kc r = k)) ≠ [] := by
      intro hnil
      exact (List.filter_eq_nil_iff.mp hnil r hr) (by simp [hkey])
    rw [List.getLast?_append_of_ne_nil _ hne]
  · intro k hk
    rw [hdedup, dedupLast_filter_key, List.filter_append]
    have hnil : df_new.filter (fun r => decide (keyOf kc r = k)) = [] := by
      rw [List.filter_eq_nil_iff]
      intro r hr
      simpa using hk r hr
    rw [hnil, List.append_nil]

/-- C1 witness: prior rows `r1 = Easy`, `r2 = Medium`; new row `r1 = Hard`.
The merge keeps exactly `r2 = Medium` (prior, untouched) and `r1 = Hard`
(new wins), each key once. -/
theorem merge_incremental_last_write_wins_witness :
    merge_with_existing [exC1New] (some exC1Dir) "recipe.csv" ["recipe_id"] true =
      dedupLast ["recipe_id"] ([exC1PriorA, exC1PriorB] ++ [exC1New]) :=
  (merge_incremental_last_write_wins [exC1New] [exC1PriorA, exC1PriorB] exC1Dir
    "recipe.csv" ["recipe_id"] _ (by decide) (by decide) rfl).1

/-- C2: merging an empty batch of new rows against a readable prior snapshot
`S` (whose keys are pairwise distinct — or whose `key_columns` are empty, in
which case no deduplication happens) returns `S` itself: same keys, same
attribute values, no duplicates. -/
theorem merge_empty_new_rows_identity
    (S : List Row) (d : Dir) (filename : String) (kc : List String)
    (hfile : List.lookup filename d = some (.csv S))
    (hnd : kc = [] ∨ (S.map (keyOf kc)).Nodup) :
    merge_with_existing [] (some d) filename kc true = S := by
  simp only [merge_with_existing, hfile, List.append_nil]
  rcases hnd with h | h
  · rw [if_pos (by simp [h])]
  · by_cases hkc : kc.isEmpty
    · rw [if_pos hkc]
    · rw [if_neg hkc, dedupLast_eq_self_of_nodup_keys h]

/-- C2 witness: merging zero new rows against the two-row snapshot returns
it unchanged. -/
theorem merge_empty_new_rows_identity_witness :
    merge_with_existing [] (some exC2Dir) "recipe.csv" ["recipe_id"] true =
      [exC2RowA, exC2RowB] :=
  merge_empty_new_rows_identity [exC2RowA, exC2RowB] exC2Dir "recipe.csv" ["recipe_id"]
    (by decide) (Or.inr (by decide))

/-! ## C3: checkpoint write timing -/

/-- C3 counterexample: a successful run with a strictly advancing clock
(sample 0 before extraction, sample 1 at the end) writes the end-of-run
sample, not the run's start time, to the checkpoint. -/
theorem checkpoint_end_time_counterexample :
    (etlMain exC3Env).success = true ∧
    runStartTime exC3Env = 0 ∧
    (etlMain exC3Env).checkpointWritten = some 1 ∧
    (etlMain exC3Env).checkpointWritten ≠ some (runStartTime exC3Env) := by
  refine ⟨rfl, rfl, rfl, by decide⟩

/-- C3 (amended): the checkpoint is written iff directory creation,
extraction and normalization/saving all succeed, and the value written is
the second `utcnow()` sample — taken at the end of the run, after snapshot
writing — not the run's start time. -/
theorem checkpoint_written_only_on_success_end_time (env : RunEnv) :
    (etlMain env).success = (env.createOk && env.fetchOk && env.normalizeOk) ∧
    (etlMain env).checkpointWritten =
      (if (etlMain env).success = true then some (env.clock 1) else none) := by
  cases hc : env.createOk <;> cases hf : env.fetchOk <;> cases hn : env.normalizeOk <;>
    simp [etlMain, hc, hf, hn]

/-! ## C4: where the Validation Engine reads its inputs -/

/-- C4: with a freshly produced snapshot `v1_2024-01-01_00-00-00` holding
all five entity files (and nothing at the `ETL_Output` root), the latest
version directory resolves to that snapshot and its `recipe.csv` is
readable there, yet `validation.main` reads the fixed non-versioned path
`ETL_Output/recipe.csv` and fails with `FileNotFoundError`. -/
theorem validation_reads_nonversioned_dir :
    get_latest_version_dir exC4Listing = some exC4V1 ∧
    readCsvE exC4FS ("ETL_Output/" ++ exC4V1 ++ "/recipe.csv") = .ok exC4SnapshotRows ∧
    validationLoadInputs exC4FS = .error ("FileNotFoundError: ETL_Output/recipe.csv") := by
  refine ⟨by decide, by decide, rfl⟩

/-! ## C8: version numbering and creation collisions -/

theorem takeWhile_append_stop {p : Char → Bool} :
    ∀ (l₁ : List Char) (a : Char) (l₂ : List Char), (∀ x ∈ l₁, p x) → p a = false →
      (l₁ ++ a :: l₂).takeWhile p = l₁ := by
  intro l₁
  induction l₁ with
  | nil =>
      intro a l₂ _ ha
      simp [List.takeWhile_cons, ha]
  | cons x xs ih =>
      intro a l₂ hall ha
      rw [List.cons_append, List.takeWhile_cons, if_pos (hall x (List.mem_cons_self x xs))]
      rw [ih a l₂ (fun y hy => hall y (List.mem_cons_of_mem x hy)) ha]

theorem versionName_data (num ts : String) :
    ("v" ++ num ++ "_" ++ ts).data = 'v' :: (num.data ++ '_' :: ts.data) := by
  have h1 : "v".data = ['v'] := rfl
  have h2 : "_".data = ['_'] := rfl
  simp [String.data_append, h1, h2]

theorem listVersionDirs_cons_v (num : String) (n : ℤ) (ts : String) (rest : Listing)
    (hnum : pyInt? num = some n)
    (hnd : ∀ c ∈ num.data, c ≠ '_') :
    listVersionDirs (("v" ++ num ++ "_" ++ ts, true) :: rest) =
      (n, "v" ++ num ++ "_" ++ ts) :: listVersionDirs rest := by
  have hsw : startsWithV ("v" ++ num ++ "_" ++ ts) = true := by
    rw [startsWithV, versionName_data]
    rfl
  have hhu : hasUnderscore ("v" ++ num ++ "_" ++ ts) = true := by
    rw [hasUnderscore, versionName_data]
    simp
  have hbu : beforeUnderscore ("v" ++ num ++ "_" ++ ts) = ⟨'v' :: num.data⟩ := by
    rw [beforeUnderscore, versionName_data, List.takeWhile_cons, if_pos (by decide)]
    rw [takeWhile_append_stop num.data '_' ts.data
      (fun c hc => by simpa using hnd c hc) (by decide)]
  have hdf : dropFirstChar (⟨'v' :: num.data⟩ : String) = num := rfl
  rw [listVersionDirs, List.filterMap_cons]
  rw [show (("v" ++ num ++ "_" ++ ts, true) : String × Bool).2 = true from rfl]
  simp only [hsw, hhu, Bool.and_self, Bool.true_and, hbu, hdf, hnum]
  rfl

theorem listVersionDirs_v1 (ts : String) (rest : Listing) :
    listVersionDirs (("v1_" ++ ts, true) :: rest) = (1, "v1_" ++ ts) :: listVersionDirs rest :=
  listVersionDirs_cons_v "1" 1 ts rest (by decide) (by decide)

theorem listVersionDirs_v2 (ts : String) (rest : Listing) :
    listVersionDirs (("v2_" ++ ts, true) :: rest) = (2, "v2_" ++ ts) :: listVersionDirs rest :=
  listVersionDirs_cons_v "2" 2 ts rest (by decide) (by decide)

theorem listVersionDirs_v3 (ts : String) (rest : Listing) :
    listVersionDirs (("v3_" ++ ts, true) :: rest) = (3, "v3_" ++ ts) :: listVersionDirs rest :=
  listVersionDirs_cons_v "3" 3 ts rest (by decide) (by decide)

theorem v2_ne_v1 (ts1 ts2 : String) : ("v1_" ++ ts1) ≠ ("v2_" ++ ts2) := by
  intro h
  have hd := congrArg String.data h
  rw [String.data_append, String.data_append] at hd
  simp at hd

theorem v3_ne_v1 (ts1 ts2 : String) : ("v1_" ++ ts1) ≠ ("v3_" ++ ts2) := by
  intro h
  have hd := congrArg String.data h
  rw [String.data_append, String.data_append] at hd
  simp at hd

theorem v3_ne_v2 (ts1 ts2 : String) : ("v2_" ++ ts1) ≠ ("v3_" ++ ts2) := by
  intro h
  have hd := congrArg String.data h
  rw [String.data_append, String.data_append] at hd
  simp at hd

theorem maxVersionNum_v1 (ts : String) : maxVersionNum [("v1_" ++ ts, true)] = 1 := by
  rw [maxVersionNum, listVersionDirs_v1]
  rfl

theorem maxVersionNum_v1v2 (ts1 ts2 : String) :
    maxVersionNum [("v1_" ++ ts1, true), ("v2_" ++ ts2, true)] = 2 := by
  rw [maxVersionNum, listVersionDirs_v1, listVersionDirs_v2]
  rfl

theorem create_new_version_dir_ok (entries : Listing) (ts : String)
    (hcol : ∀ e ∈ entries, e.1 ≠ "v" ++ toString (maxVersionNum entries + 1) ++ "_" ++ ts) :
    create_new_version_dir entries ts =
      .ok (entries ++ [("v" ++ toString (maxVersionNum entries + 1) ++ "_" ++ ts, true)],
        "v" ++ toString (maxVersionNum entries + 1) ++ "_" ++ ts,
        maxVersionNum entries + 1) := by
  simp only [create_new_version_dir]
  rw [if_neg]
  intro hany
  obtain ⟨e, he, hdec⟩ := List.any_eq_true.mp hany
  exact hcol e he (of_decide_eq_true hdec)

/-- C8: starting from an empty output root, three successive
`create_new_version_dir` calls yield version numbers 1, 2, 3 (each `max`
of the existing numbers plus one) and `get_latest_version_dir` then
resolves to version 3; when the exact target path already exists (whatever
kind of entry it is), creation fails with `FileExistsError` instead of
silently reusing the directory; and every successful creation returns
`max(existing numbers, default 0) + 1`. -/
theorem create_next_version_monotonic :
    (∀ ts1 ts2 ts3 : String,
      create_new_version_dir [] ts1 = .ok ([("v1_" ++ ts1, true)], "v1_" ++ ts1, 1) ∧
      create_new_version_dir [("v1_" ++ ts1, true)] ts2 =
        .ok ([("v1_" ++ ts1, true), ("v2_" ++ ts2, true)], "v2_" ++ ts2, 2) ∧
      create_new_version_dir [("v1_" ++ ts1, true), ("v2_" ++ ts2, true)] ts3 =
        .ok ([("v1_" ++ ts1, true), ("v2_" ++ ts2, true), ("v3_" ++ ts3, true)],
          "v3_" ++ ts3, 3) ∧
      get_latest_version_dir
          [("v1_" ++ ts1, true), ("v2_" ++ ts2, true), ("v3_" ++ ts3, true)] =
        some ("v3_" ++ ts3)) ∧
    (∀ (entries : Listing) (ts : String),
      ("v" ++ toString (maxVersionNum entries + 1) ++ "_" ++ ts) ∈ entries.map Prod.fst →
      create_new_version_dir entries ts = .error "FileExistsError") ∧
    (∀ (entries : Listing) (ts : String) (st : Listing) (name : String) (n : ℤ),
      create_new_version_dir entries ts = .ok (st, name, n) →
      n = maxVersionNum entries + 1 ∧ name = "v" ++ toString n ++ "_" ++ ts) := by
  refine ⟨?_, ?_, ?_⟩
  · intro ts1 ts2 ts3
    have hm1 : maxVersionNum ([] : Listing) = 0 := rfl
    have h1 := create_new_version_dir_ok [] ts1 (by simp)
    rw [hm1] at h1
    have h2 := create_new_version_dir_ok [("v1_" ++ ts1, true)] ts2 ?hc2
    case hc2 =>
      intro e he
      rw [maxVersionNum_v1]
      simp only [List.mem_singleton] at he
      rw [he]
      exact v2_ne_v1 ts1 ts2
    rw [maxVersionNum_v1] at h2
    have h3 := create_new_version_dir_ok [("v1_" ++ ts1, true), ("v2_" ++ ts2, true)] ts3 ?hc3
    case hc3 =>
      intro e he
      rw [maxVersionNum_v1v2]
      rcases List.mem_cons.mp he with he1 | he2
      · rw [he1]; exact v3_ne_v1 ts1 ts3
      · simp only [List.mem_singleton] at he2
        rw [he2]
        exact v3_ne_v2 ts2 ts3
    rw [maxVersionNum_v1v2] at h3
    refine ⟨h1, h2, h3, ?_⟩
    rw [get_latest_version_dir, listVersionDirs_v1, listVersionDirs_v2, listVersionDirs_v3]
    rfl
  · intro entries ts hmem
    simp only [create_new_version_dir]
    rw [if_pos]
    obtain ⟨e, he, heq⟩ := List.mem_map.mp hmem
    exact List.any_eq_true.mpr ⟨e, he, by simp [heq]⟩
  · intro entries ts st name n h
    simp only [create_new_version_dir] at h
    by_cases hc : entries.any
        (fun e => decide (e.1 = "v" ++ toString (maxVersionNum entries + 1) ++ "_" ++ ts)) = true
    · rw [if_pos hc] at h
      cases h
    · rw [if_neg hc] at h
      simp only [Except.ok.injEq, Prod.mk.injEq] at h
      obtain ⟨-, hname, hn⟩ := h
      subst hn
      exact ⟨rfl, hname.symm⟩

/-- C8 witness: with an existing version directory `v1_a` and a plain file
named `v2_b`, creating the next version (timestamp `b`) targets exactly
`v2_b` and fails with `FileExistsError`. -/
theorem create_next_version_monotonic_witness :
    create_new_version_dir [("v1_a", true), ("v2_b", false)] "b" = .error "FileExistsError" :=
  create_next_version_monotonic.2.1 [("v1_a", true), ("v2_b", false)] "b" (by decide)

/-! ## Row lookup lemmas -/

theorem lookup_cons_ne {α : Type _} (k k' : String) (v : α) (l : List (String × α))
    (h : k' ≠ k) : List.lookup k' ((k, v) :: l) = List.lookup k' l := by
  have hb : (k' == k) = false := beq_eq_false_iff_ne.mpr h
  simp [List.lookup, hb]

theorem find?_delCol_ne (r : Row) (c c' : String) (h : c' ≠ c) :
    (r.delCol c).find? c' = r.find? c' := by
  rw [Row.delCol, Row.find?, Row.find?]
  induction r with
  | nil => rfl
  | cons p t ih =>
      rcases p with ⟨k, u⟩
      rw [List.filter_cons]
      by_cases hk : k = c
      · rw [if_neg (by simp [hk]), ih, hk, lookup_cons_ne _ _ _ _ h]
      · rw [if_pos (by simp [hk])]
        by_cases hc : c' = k
        · subst hc
          simp [List.lookup]
        · rw [lookup_cons_ne _ _ _ _ hc, lookup_cons_ne _ _ _ _ hc, ih]

theorem find?_delCol_same (r : Row) (c : String) : (r.delCol c).find? c = none := by
  rw [Row.delCol, Row.find?]
  induction r with
  | nil => rfl
  | cons p t ih =>
      rcases p with ⟨k, u⟩
      rw [List.filter_cons]
      by_cases hk : k = c
      · rw [if_neg (by simp [hk]), ih]
      · rw [if_pos (by simp [hk]), lookup_cons_ne _ _ _ _ (fun hck => hk hck.symm), ih]

theorem getD_setCol_same (r : Row) (c : String) (v : Value) :
    (r.setCol c v).getD c = v := by
  simp [Row.setCol, Row.getD, Row.find?, List.lookup]

theorem getD_setCol_ne (r : Row) (c c' : String) (v : Value) (h : c' ≠ c) :
    (r.setCol c v).getD c' = r.getD c' := by
  rw [Row.getD, Row.getD, Row.setCol]
  show (List.lookup c' ((c, v) :: r.delCol c)).getD .vnull = _
  rw [lookup_cons_ne _ _ _ _ h]
  rw [show List.lookup c' (r.delCol c) = (r.delCol c).find? c' from rfl, find?_delCol_ne r c c' h]

theorem getD_delCol_ne (r : Row) (c c' : String) (h : c' ≠ c) :
    (r.delCol c).getD c' = r.getD c' := by
  rw [Row.getD, Row.getD, find?_delCol_ne r c c' h]

theorem getD_delCol_same (r : Row) (c : String) : (r.delCol c).getD c = .vnull := by
  rw [Row.getD, find?_delCol_same]
  rfl

/-! ## C6: validity flag and error accumulation -/

theorem recipeRowCheck_spec (row : Row) :
    (recipeRowCheck row).1 = recipeRules.filterMap (fun rule => rule row) ∧
    (recipeRowCheck row).2 = (recipeRowCheck row).1.isEmpty := by
  cases h1 : recipeNameBad row <;> cases h2 : recipeDescBad row <;>
    cases h3 : recipePrepBad row <;> cases h4 : recipeCookBad row <;>
      cases h5 : recipeServingsBad row <;> cases h6 : recipeDifficultyBad row <;>
        simp [recipeRowCheck, recipeRules, h1, h2, h3, h4, h5, h6]

theorem userRowCheck_spec (row : Row) :
    (userRowCheck row).1 = userRules.filterMap (fun rule => rule row) ∧
    (userRowCheck row).2 = (userRowCheck row).1.isEmpty := by
  cases h1 : userIdBad row <;> cases h2 : userNameBad row <;>
    simp [userRowCheck, userRules, h1, h2]

theorem ingredientRowCheck_spec (row : Row) :
    (ingredientRowCheck row).1 = ingredientRules.filterMap (fun rule => rule row) ∧
    (ingredientRowCheck row).2 = (ingredientRowCheck row).1.isEmpty := by
  cases h1 : ingredientRecipeIdBad row <;> cases h2 : ingredientNameBad row <;>
    cases h3 : ingredientQuantityBad row <;>
      simp [ingredientRowCheck, ingredientRules, h1, h2, h3]

theorem stepRowCheck_spec (row : Row) :
    (stepRowCheck row).1 = stepRules.filterMap (fun rule => rule row) ∧
    (stepRowCheck row).2 = (stepRowCheck row).1.isEmpty := by
  cases h1 : stepRecipeIdBad row <;> cases h2 : stepInstructionBad row <;>
    cases h3 : stepNoBad row <;> cases h4 : stepDurationBad row <;>
      simp [stepRowCheck, stepRules, h1, h2, h3, h4]

theorem interactionRowCheck_spec (row : Row) :
    (interactionRowCheck row).1 = interactionRules.filterMap (fun rule => rule row) ∧
    (interactionRowCheck row).2 = (interactionRowCheck row).1.isEmpty := by
  cases h1 : interactionUserIdBad row <;> cases h2 : interactionRecipeIdBad row <;>
    cases h3 : interactionTypeBad row <;>
      cases hg : interactionIsRatingType row <;> cases hr : interactionRatingBad row <;>
        cases h5 : interactionTimestampBad row <;>
          simp [interactionRowCheck, interactionRules, h1, h2, h3, hg, hr, h5]

/-- C6: for every entity type's per-row check, `is_valid` is true iff the
errors list is empty, and the errors list is exactly the list of one entry
per failed rule, each rule evaluated independently of the others (no
short-circuiting). -/
theorem rowcheck_valid_iff_errors_empty (row : Row) :
    ((recipeRowCheck row).2 = (recipeRowCheck row).1.isEmpty ∧
      (recipeRowCheck row).1 = recipeRules.filterMap (fun rule => rule row)) ∧
    ((userRowCheck row).2 = (userRowCheck row).1.isEmpty ∧
      (userRowCheck row).1 = userRules.filterMap (fun rule => rule row)) ∧
    ((ingredientRowCheck row).2 = (ingredientRowCheck row).1.isEmpty ∧
      (ingredientRowCheck row).1 = ingredientRules.filterMap (fun rule => rule row)) ∧
    ((stepRowCheck row).2 = (stepRowCheck row).1.isEmpty ∧
      (stepRowCheck row).1 = stepRules.filterMap (fun rule => rule row)) ∧
    ((interactionRowCheck row).2 = (interactionRowCheck row).1.isEmpty ∧
      (interactionRowCheck row).1 = interactionRules.filterMap (fun rule => rule row)) :=
  ⟨⟨(recipeRowCheck_spec row).2, (recipeRowCheck_spec row).1⟩,
   ⟨(userRowCheck_spec row).2, (userRowCheck_spec row).1⟩,
   ⟨(ingredientRowCheck_spec row).2, (ingredientRowCheck_spec row).1⟩,
   ⟨(stepRowCheck_spec row).2, (stepRowCheck_spec row).1⟩,
   ⟨(interactionRowCheck_spec row).2, (interactionRowCheck_spec row).1⟩⟩

/-! ## C7: the rating rule is conditional on the interaction type -/

theorem interactionRowCheck_setCol_rating (r : Row) (v : Value)
    (h : r.getD "type" ≠ .vstr "rating") :
    interactionRowCheck (r.setCol "rating" v) = interactionRowCheck r := by
  have hty : (r.setCol "rating" v).getD "type" = r.getD "type" :=
    getD_setCol_ne r "rating" "type" v (by decide)
  have hu : (r.setCol "rating" v).getD "user_id" = r.getD "user_id" :=
    getD_setCol_ne r "rating" "user_id" v (by decide)
  have hrid : (r.setCol "rating" v).getD "recipe_id" = r.getD "recipe_id" :=
    getD_setCol_ne r "rating" "recipe_id" v (by decide)
  have hts : (r.setCol "rating" v).getD "timestamp" = r.getD "timestamp" :=
    getD_setCol_ne r "rating" "timestamp" v (by decide)
  have hg : interactionIsRatingType r = false := by
    simp [interactionIsRatingType, h]
  have hg' : interactionIsRatingType (r.setCol "rating" v) = false := by
    simp [interactionIsRatingType, hty, h]
  simp [interactionRowCheck, interactionUserIdBad, interactionRecipeIdBad,
    interactionTypeBad, interactionTimestampBad, hty, hu, hrid, hts, hg, hg']

/-- C7: the rating-bounds rule is evaluated only when the row's type equals
the string `rating`: for any other type the whole check is independent of
the rating value; a `view` row with a null rating is valid, a `rating` row
with rating 7 is invalid with exactly the rating-bounds error, and a
`rating` row with rating 4 is valid. -/
theorem rating_rule_only_for_rating_type :
    (∀ (r : Row) (v : Value), r.getD "type" ≠ .vstr "rating" →
       interactionRowCheck (r.setCol "rating" v) = interactionRowCheck r) ∧
    interactionRowCheck exC7View = ([], true) ∧
    interactionRowCheck exC7Rating7 =
      (["Rating out of bounds or missing for rating type: " ++ (Value.vfloat 7).pyStr],
        false) ∧
    interactionRowCheck exC7Rating4 = ([], true) :=
  ⟨fun r v h => interactionRowCheck_setCol_rating r v h, by decide, by decide, by decide⟩

/-- C7 witness: a `view`-typed row keeps the same (valid) outcome whatever
rating it carries, and the three concrete outcomes hold. -/
theorem rating_rule_only_for_rating_type_witness :
    interactionRowCheck (exC7View.setCol "rating" (.vfloat 9)) =
      interactionRowCheck exC7View :=
  rating_rule_only_for_rating_type.1 exC7View (.vfloat 9) (by decide)

/-! ## C9: missing `user_id` column -/

/-- C9: when the (stripped) user columns do not include `user_id`, the
validator returns normally with an empty report, an empty-but-written clean
partition, and every input row quarantined. -/
theorem users_missing_key_column_quarantine_all (df : Frame)
    (h : "user_id" ∉ df.stripCols.cols) :
    validate_users df = .ok ⟨[], [], df.stripCols.rows⟩ ∧
    df.stripCols.rows.length = df.rows.length := by
  constructor
  · simp only [validate_users]
    rw [if_pos h]
  · simp [Frame.stripCols]

/-- C9 witness: a users frame with columns `uid`, `name` only. -/
theorem users_missing_key_column_quarantine_all_witness :
    validate_users exC9Frame = .ok ⟨[], [], exC9Frame.stripCols.rows⟩ ∧
    exC9Frame.stripCols.rows.length = 1 :=
  ⟨(users_missing_key_column_quarantine_all exC9Frame (by decide)).1, rfl⟩

/-! ## C10: rating normalization -/

/-- C10: in `normalize_and_save`, an interaction whose rating is falsy
(absent, null, `0`, `0.0`, the empty string, or `False`) gets rating `None`
in the snapshot row — a rating of exactly 0 is indistinguishable from a
missing rating — while a truthy rating is passed through `float(...)`:
successful conversion yields that float, failed conversion raises out of
normalization. -/
theorem normalize_rating_falsy_none :
    (∀ it : Row, (it.getD "rating").truthy = false →
       (normalizeInteraction it).map (fun out => out.getD "rating") = .ok .vnull) ∧
    (∀ it : Row,
       normalizeInteraction (it.setCol "rating" (.vint 0)) =
         normalizeInteraction (it.delCol "rating") ∧
       normalizeInteraction (it.setCol "rating" (.vfloat 0)) =
         normalizeInteraction (it.delCol "rating")) ∧
    (∀ (it : Row) (q : ℚ), (it.getD "rating").truthy = true →
       pyFloat? (it.getD "rating") = some q →
       (normalizeInteraction it).map (fun out => out.getD "rating") = .ok (.vfloat q)) ∧
    (∀ it : Row, (it.getD "rating").truthy = true →
       pyFloat? (it.getD "rating") = none →
       normalizeInteraction it = .error "float() conversion failed") := by
  have fields : ∀ (it : Row) (v : Value) (c : String), c ≠ "rating" →
      (it.setCol "rating" v).getD c = (it.delCol "rating").getD c := by
    intro it v c hc
    rw [getD_setCol_ne it "rating" c v hc, getD_delCol_ne it "rating" c hc]
  refine ⟨?_, ?_, ?_, ?_⟩
  · intro it h
    simp only [normalizeInteraction, h]
    rfl
  · intro it
    have h0 : (it.setCol "rating" (.vint 0)).getD "rating" = .vint 0 :=
      getD_setCol_same it "rating" (.vint 0)
    have h0' : (it.setCol "rating" (.vfloat 0)).getD "rating" = .vfloat 0 :=
      getD_setCol_same it "rating" (.vfloat 0)
    have hd : (it.delCol "rating").getD "rating" = .vnull := getD_delCol_same it "rating"
    constructor
    · simp only [normalizeInteraction, h0, hd,
        fields it (.vint 0) "interaction_id" (by decide),
        fields it (.vint 0) "user_id" (by decide),
        fields it (.vint 0) "recipe_id" (by decide),
        fields it (.vint 0) "type" (by decide),
        fields it (.vint 0) "like" (by decide),
        fields it (.vint 0) "timestamp" (by decide)]
      rfl
    · simp only [normalizeInteraction, h0', hd,
        fields it (.vfloat 0) "interaction_id" (by decide),
        fields it (.vfloat 0) "user_id" (by decide),
        fields it (.vfloat 0) "recipe_id" (by decide),
        fields it (.vfloat 0) "type" (by decide),
        fields it (.vfloat 0) "like" (by decide),
        fields it (.vfloat 0) "timestamp" (by decide)]
      rfl
  · intro it q h hq
    simp only [normalizeInteraction, h, hq]
    rfl
  · intro it h hq
    simp only [normalizeInteraction, h, hq]
    rfl

/-- C10 witness: a document with rating 4 normalizes to the float 4. -/
theorem normalize_rating_falsy_none_witness :
    (normalizeInteraction exC10Doc).map (fun out => out.getD "rating") =
      .ok (.vfloat 4) :=
  normalize_rating_falsy_none.2.2.1 exC10Doc 4 (by decide) (by decide)

/-! ## C5: clean/quarantine partitioning -/

theorem recipesLoop_quarantine :
    ∀ (rows : List Row) (rep : List VRecord) (quar : List Row),
      recipesLoop rows = .ok (rep, quar) →
      quar = rows.filter (fun r => !(recipeRowCheck r).2) := by
  intro rows
  induction rows with
  | nil =>
      intro rep quar h
      simp only [recipesLoop, Except.ok.injEq, Prod.mk.injEq] at h
      rw [← h.2]
      rfl
  | cons row rest ih =>
      intro rep quar h
      rw [recipesLoop] at h
      cases hg : row.getE "recipe_id" with
      | error e => rw [hg] at h; exact Except.noConfusion h
      | ok rid =>
          rw [hg] at h
          cases hl : recipesLoop rest with
          | error e => rw [hl] at h; exact Except.noConfusion h
          | ok pr =>
              rcases pr with ⟨rep', quar'⟩
              rw [hl] at h
              simp only [Except.ok.injEq, Prod.mk.injEq] at h
              rw [← h.2, ih rep' quar' hl, List.filter_cons]
              cases hc : (recipeRowCheck row).2 <;> simp [hc]

theorem stepsLoop_quarantine :
    ∀ (rows : List Row) (i : Nat) (rep : List VRecord) (qIdx : List Nat) (qRows : List Row),
      stepsLoop i rows = .ok (rep, qIdx, qRows) →
      qIdx = ((List.enumFrom i rows).filter (fun p => !(stepRowCheck p.2).2)).map Prod.fst ∧
      qRows = rows.filter (fun r => !(stepRowCheck r).2) := by
  intro rows
  induction rows with
  | nil =>
      intro i rep qIdx qRows h
      simp only [stepsLoop, Except.ok.injEq, Prod.mk.injEq] at h
      rw [← h.2.1, ← h.2.2]
      exact ⟨rfl, rfl⟩
  | cons row rest ih =>
      intro i rep qIdx qRows h
      rw [stepsLoop] at h
      cases hg : row.getE "recipe_id" with
      | error e => rw [hg] at h; exact Except.noConfusion h
      | ok rid =>
          cases hs : row.getE "step_no" with
          | error e => rw [hg, hs] at h; exact Except.noConfusion h
          | ok sno =>
              rw [hg, hs] at h
              cases hl : stepsLoop (i + 1) rest with
              | error e => rw [hl] at h; exact Except.noConfusion h
              | ok pr =>
                  rcases pr with ⟨rep', qIdx', qRows'⟩
                  rw [hl] at h
                  simp only [Except.ok.injEq, Prod.mk.injEq] at h
                  obtain ⟨hi, hr⟩ := ih (i + 1) rep' qIdx' qRows' hl
                  constructor
                  · rw [← h.2.1, hi]
                    rw [show List.enumFrom i (row :: rest) =
                      (i, row) :: List.enumFrom (i + 1) rest from rfl, List.filter_cons]
                    cases hc : (stepRowCheck row).2 <;> simp [hc]
                  · rw [← h.2.2, hr, List.filter_cons]
                    cases hc : (stepRowCheck row).2 <;> simp [hc]

theorem map_snd_filter_enumFrom (g : Row → Bool) :
    ∀ (rows : List Row) (i : Nat),
      ((List.enumFrom i rows).filter (fun p => g p.2)).map Prod.snd = rows.filter g := by
  intro rows
  induction rows with
  | nil => intro i; rfl
  | cons row rest ih =>
      intro i
      rw [show List.enumFrom i (row :: rest) = (i, row) :: List.enumFrom (i + 1) rest from rfl]
      rw [List.filter_cons, List.filter_cons]
      cases hc : g row <;> simp [hc, ih (i + 1)]

theorem mem_filter_partition {l : List Row} {f : Row → Bool} (r : Row) (hr : r ∈ l) :
    (r ∈ l.filter f ↔ r ∉ l.filter (fun x => !(f x))) := by
  simp only [List.mem_filter, hr, true_and]
  cases hc : f r <;> simp

theorem length_filter_partition (l : List Row) (f : Row → Bool) :
    (l.filter f).length + (l.filter (fun x => !(f x))).length = l.length :=
  (List.length_eq_length_filter_add f).symm

/-- Characterization of `validate_recipes` on a frame with pairwise-distinct
keys: its partitions are the valid/invalid filters of the input rows. -/
theorem validate_recipes_partition (df : Frame) (out : VOut)
    (hok : validate_recipes df = .ok out)
    (hnd : (df.stripCols.rows.map (fun r => r.getD "recipe_id")).Nodup) :
    out.clean = df.stripCols.rows.filter (fun r => (recipeRowCheck r).2) ∧
    out.quarantine = df.stripCols.rows.filter (fun r => !(recipeRowCheck r).2) := by
  rw [validate_recipes] at hok
  cases hl : recipesLoop df.stripCols.rows with
  | error e => rw [hl] at hok; exact Except.noConfusion hok
  | ok pr =>
      rcases pr with ⟨report, quarRows⟩
      rw [hl] at hok
      cases hc : df.stripCols.colE "recipe_id" with
      | error e => rw [hc] at hok; exact Except.noConfusion hok
      | ok cvals =>
          rw [hc] at hok
          have hquar : quarRows = df.stripCols.rows.filter (fun r => !(recipeRowCheck r).2) :=
            recipesLoop_quarantine df.stripCols.rows report quarRows hl
          have hout := (Except.ok.inj hok).symm
          rw [hout]
          refine ⟨?_, hquar⟩
          simp only []
          rw [List.filter_congr]
          intro r hrmem
          have hmemiff :
              (quarRows.map (fun r => r.getD "recipe_id")).any
                  (fun k => decide (k = r.getD "recipe_id")) =
                !(recipeRowCheck r).2 := by
            cases hv : (recipeRowCheck r).2
            · simp only [Bool.not_false]
              apply List.any_eq_true.mpr
              refine ⟨r.getD "recipe_id", List.mem_map.mpr ⟨r, ?_, rfl⟩, by simp⟩
              rw [hquar, List.mem_filter]
              exact ⟨hrmem, by simp [hv]⟩
            · simp only [Bool.not_true]
              apply Bool.eq_false_iff.mpr
              intro hany
              obtain ⟨k, hk, hkr⟩ := List.any_eq_true.mp hany
              obtain ⟨q, hq, hqk⟩ := List.mem_map.mp hk
              rw [hquar, List.mem_filter] at hq
              have hkeys : q.getD "recipe_id" = r.getD "recipe_id" := by
                rw [hqk]; exact of_decide_eq_true hkr
              have : q = r := List.inj_on_of_nodup_map hnd hq.1 hrmem hkeys
              rw [this] at hq
              rw [hv] at hq
              simp at hq
          rw [hmemiff]
          cases hv : (recipeRowCheck r).2 <;> simp

/-- Characterization of `validate_steps`: index-based exclusion makes the
partitions the valid/invalid filters of the input rows, unconditionally. -/
theorem validate_steps_partition (df : Frame) (out : VOut)
    (hok : validate_steps df = .ok out) :
    out.clean = df.stripCols.rows.filter (fun r => (stepRowCheck r).2) ∧
    out.quarantine = df.stripCols.rows.filter (fun r => !(stepRowCheck r).2) := by
  rw [validate_steps] at hok
  cases hl : stepsLoop 0 df.stripCols.rows with
  | error e => rw [hl] at hok; exact Except.noConfusion hok
  | ok pr =>
      rcases pr with ⟨report, quarIdx, quarRows⟩
      rw [hl] at hok
      obtain ⟨hidx, hrows⟩ := stepsLoop_quarantine df.stripCols.rows 0 report quarIdx quarRows hl
      have hout := (Except.ok.inj hok).symm
      rw [hout]
      refine ⟨?_, hrows⟩
      simp only []
      have henum : df.stripCols.rows.enum = List.enumFrom 0 df.stripCols.rows := rfl
      have hcongr :
          List.filter (fun p => !(quarIdx.any (fun j => decide (j = p.1))))
              (List.enumFrom 0 df.stripCols.rows) =
            List.filter (fun p => (stepRowCheck p.2).2)
              (List.enumFrom 0 df.stripCols.rows) := by
        apply List.filter_congr
        intro p hp
        have hmemiff :
            (quarIdx.any (fun j => decide (j = p.1))) = !(stepRowCheck p.2).2 := by
          cases hv : (stepRowCheck p.2).2
          · simp only [Bool.not_false]
            apply List.any_eq_true.mpr
            refine ⟨p.1, ?_, by simp⟩
            rw [hidx]
            exact List.mem_map.mpr ⟨p, List.mem_filter.mpr ⟨hp, by simp [hv]⟩, rfl⟩
          · simp only [Bool.not_true]
            apply Bool.eq_false_iff.mpr
            intro hany
            obtain ⟨j, hj, hjp⟩ := List.any_eq_true.mp hany
            rw [hidx] at hj
            obtain ⟨q, hq, hqj⟩ := List.mem_map.mp hj
            rw [List.mem_filter] at hq
            have hfst : q.1 = p.1 := by rw [hqj]; exact of_decide_eq_true hjp
            have hnd : ((List.enumFrom 0 df.stripCols.rows).map Prod.fst).Nodup := by
              rw [← henum]
              exact List.nodup_enum_map_fst _
            have : q = p := List.inj_on_of_nodup_map hnd hq.1 hp hfst
            rw [this, hv] at hq
            simp at hq
        rw [hmemiff]
        cases hv : (stepRowCheck p.2).2 <;> simp
      rw [henum, hcongr]
      exact map_snd_filter_enumFrom (fun r => (stepRowCheck r).2) df.stripCols.rows 0

/-- C5 counterexample: on two distinct recipe rows sharing the key `r1`, one
invalid, `validate_recipes` produces 0 clean and 1 quarantined row out of 2
input rows, and the valid row appears in neither partition. -/
theorem partition_duplicate_key_counterexample :
    (validate_recipes exC5DupFrame).map (fun o => (o.clean.length, o.quarantine.length)) =
      .ok (0, 1) ∧
    exC5DupFrame.rows.length = 2 ∧
    (validate_recipes exC5DupFrame).map (fun o => decide (exC5Good ∈ o.clean)) = .ok false ∧
    (validate_recipes exC5DupFrame).map (fun o => decide (exC5Good ∈ o.quarantine)) =
      .ok false := ⟨rfl, rfl, rfl, rfl⟩

/-- C5 (amended): the clean/quarantine partitions are a strict partition of
the input rows — `|clean| + |quarantine| = |input|`, every input row lands in
exactly one partition, and no key occurs in both — for `validate_recipes`
whenever the input's natural-key values are pairwise distinct (with
duplicate keys a valid row sharing its key with an invalid one is dropped
from both partitions), and for `validate_steps` unconditionally, its
exclusion being index-based. -/
theorem partition_strictness_amended :
    (∀ (df : Frame) (out : VOut), validate_recipes df = .ok out →
      ((df.stripCols.rows.map (fun r => r.getD "recipe_id")).Nodup) →
      (out.clean.length + out.quarantine.length = df.stripCols.rows.length ∧
       (∀ r ∈ df.stripCols.rows, (r ∈ out.clean ↔ r ∉ out.quarantine)) ∧
       (∀ r ∈ out.clean,
         r.getD "recipe_id" ∉ out.quarantine.map (fun q => q.getD "recipe_id")))) ∧
    (∀ (df : Frame) (out : VOut), validate_steps df = .ok out →
      (out.clean.length + out.quarantine.length = df.stripCols.rows.length ∧
       (∀ r ∈ df.stripCols.rows, (r ∈ out.clean ↔ r ∉ out.quarantine)))) := by
  constructor
  · intro df out hok hnd
    obtain ⟨hclean, hquar⟩ := validate_recipes_partition df out hok hnd
    refine ⟨?_, ?_, ?_⟩
    · rw [hclean, hquar]
      exact length_filter_partition _ _
    · intro r hr
      rw [hclean, hquar]
      exact mem_filter_partition r hr
    · intro r hr hmem
      obtain ⟨q, hq, hqr⟩ := List.mem_map.mp hmem
      rw [hclean, List.mem_filter] at hr
      rw [hquar, List.mem_filter] at hq
      have : q = r := List.inj_on_of_nodup_map hnd hq.1 hr.1 hqr
      rw [this] at hq
      rw [hr.2] at hq
      simp at hq
  · intro df out hok
    obtain ⟨hclean, hquar⟩ := validate_steps_partition df out hok
    refine ⟨?_, ?_⟩
    · rw [hclean, hquar]
      exact length_filter_partition _ _
    · intro r hr
      rw [hclean, hquar]
      exact mem_filter_partition r hr

/-- C5 witness: on a recipe frame with distinct keys (one valid, one invalid
row), the two partition sizes sum to the input size. -/
theorem partition_strictness_amended_witness :
    exC5WOut.clean.length + exC5WOut.quarantine.length = exC5WFrame.stripCols.rows.length :=
  (partition_strictness_amended.1 exC5WFrame exC5WOut rfl (by decide)).1

end Pipeline
